import Mathlib

/-!
Verification of the Multi-Agent Code Debugger (AutonomousHacks-Metamusk).

The repository contains a React client (`frontend/src/components/Debugger.jsx`,
legacy `App.jsx`) and documentation for a FastAPI/LangGraph backend whose
orchestration core (`app/graphs/debug_graph.py`, state, routing) is not part of
the sources available here.  The orchestration core is therefore modelled from
the specification (sections 3, 4.2, 4.3, 4.4, 6, 7), while the client-side
definitions are translated directly from the JavaScript sources.
-/

namespace Metamusk

/-! ## Orchestration core, modelled from the spec -/

/-- Modelled from the spec: `ValidationResult.status ∈ {approved, rejected,
needs_revision}` (section 3); the backend validator agent is not in the
available sources. -/
inductive ValidationStatus where
  | approved
  | rejected
  | needs_revision
deriving DecidableEq, Repr

/-- Modelled from the spec: a `Finding` is a structured error or warning record
(id, type, line, description, optional suggestion) — glossary; the backend
Scanner agent is not in the available sources. -/
structure Finding where
  fid : Nat
  ftype : String
  line : Nat
  description : String
  suggestion : Option String
deriving DecidableEq, Repr

/-- Modelled from the spec: an `Edit` is a structured change record (line,
original text, replacement text, rationale) — glossary; the backend Fixer agent
is not in the available sources. -/
structure Edit where
  line : Nat
  original : String
  replacement : String
  rationale : String
deriving DecidableEq, Repr

/-- Modelled from the spec: `ValidationResult` carries a status, a confidence
score in [0,1] and structured checks (section 3).  The confidence score is
modelled as a rational number. -/
structure ValidationResult where
  status : ValidationStatus
  confidence : ℚ
  checks : List String
deriving DecidableEq, Repr

/-- Modelled from the spec: a stage is one of Scanner, Fixer, Validator
(glossary). -/
inductive StageName where
  | Scanner
  | Fixer
  | Validator
deriving DecidableEq, Repr

/-- Modelled from the spec: a history entry records stage name, timestamp and
summary (section 3).  Wall-clock timestamps are replaced by the stage output's
`executionTime`, the only time-like datum in the model. -/
structure HistoryEntry where
  stage : StageName
  timestamp : Nat
  summary : String
deriving DecidableEq, Repr

/-- Modelled from the spec: `RunState`, the single source of truth for one
pipeline execution (section 3); the backend state definition is not in the
available sources. -/
structure RunState where
  runId : String
  code : String
  language : String
  context : Option String
  errors : List Finding
  warnings : List Finding
  changes : List Edit
  currentCode : String
  validation : Option ValidationResult
  iteration : Nat
  maxIterations : Nat
  history : List HistoryEntry
deriving DecidableEq, Repr

/-- Modelled from the spec: a stage-specific structured `StageOutput` payload,
always including an `executionTime` (section 4.1). -/
inductive StageOutput where
  | scan (errors warnings : List Finding) (executionTime : Nat)
  | fix (changes : List Edit) (fixedCode : String) (executionTime : Nat)
  | validated (result : ValidationResult) (executionTime : Nat)
deriving DecidableEq, Repr

/-- Modelled from the spec: the history entry appended by one Reducer call
(sections 3 and 4.2: one entry per call, recording the stage name). -/
def historyEntry (stageName : StageName) (output : StageOutput) : HistoryEntry :=
  match output with
  | .scan _ _ t => ⟨stageName, t, "scan"⟩
  | .fix _ _ t => ⟨stageName, t, "fix"⟩
  | .validated _ t => ⟨stageName, t, "validate"⟩

/-- Modelled from the spec: the Reducer `merge(state, stageName, output) ->
newState` with the per-field policy table of section 4.2 — errors, warnings,
changes, currentCode (only on Fixer output) and validation are replaced,
history appends one entry per call, iteration is left to the Orchestrator. -/
def merge (state : RunState) (stageName : StageName) (output : StageOutput) :
    RunState :=
  let base :=
    match output with
    | .scan e w _ => { state with errors := e, warnings := w }
    | .fix ch fixedCode _ =>
        { state with changes := ch, currentCode := fixedCode }
    | .validated v _ => { state with validation := some v }
  { base with history := state.history ++ [historyEntry stageName output] }

/-- Modelled from the spec: a sequence of Reducer merges applied in order
(section 8, "for all sequences of Reducer merges"). -/
def mergeSeq (state : RunState) : List (StageName × StageOutput) → RunState
  | [] => state
  | (n, o) :: rest => mergeSeq (merge state n o) rest

/-- Modelled from the spec: the Router's states `Start`, `Scanning`, `Fixing`,
`Validating`, `Done` (section 4.3). -/
inductive RouterState where
  | Start
  | Scanning
  | Fixing
  | Validating
  | Done
deriving DecidableEq, Repr

/-- Modelled from the spec: the terminal outcomes of section 7 — a run ends
with no errors found, an approved fix, or `IterationLimitReached` (a defined
terminal outcome, not an error). -/
inductive Outcome where
  | noErrors
  | approvedFix
  | iterationLimit
deriving DecidableEq, Repr

/-- Modelled from the spec: the Scanner adapter's structured payload
(section 4.1). -/
structure ScanResult where
  errors : List Finding
  warnings : List Finding
  executionTime : Nat
deriving DecidableEq, Repr

/-- Modelled from the spec: the Fixer adapter's structured payload
(section 4.1). -/
structure FixResult where
  changes : List Edit
  fixedCode : String
  executionTime : Nat
deriving DecidableEq, Repr

/-- Modelled from the spec: the Validator adapter's structured payload
(section 4.1). -/
structure ValidateResult where
  result : ValidationResult
  executionTime : Nat
deriving DecidableEq, Repr

/-- Modelled from the spec: the three opaque external collaborators behind the
Stage Adapters (sections 2, 4.1).  Each is an arbitrary function of the run
state it is shown, so theorems quantifying over `Collaborators` hold whatever
the Scanner, Fixer and Validator return. -/
structure Collaborators where
  scan : RunState → ScanResult
  fix : RunState → FixResult
  validate : RunState → ValidateResult

/-- Modelled from the spec: one Orchestrator loop configuration — the Router
state machine position, the run state, and the recorded terminal outcome
(sections 4.3, 4.4, 7). -/
structure Config where
  rs : RouterState
  st : RunState
  outcome : Option Outcome
deriving DecidableEq, Repr

/-- Modelled from the spec: one pass of the Orchestrator loop (section 4.4)
realising the Router transitions of section 4.3.  In a stage state the matching
Stage Adapter is invoked, the Reducer merges its output, and the Router edge
out of that state is taken; on the `Validating -> Scanning` retry edge the
Orchestrator increments `iteration` by exactly 1.  `Done` is absorbing. -/
def step (c : Collaborators) : Config → Config
  | ⟨.Start, st, oc⟩ => ⟨.Scanning, st, oc⟩
  | ⟨.Scanning, st, oc⟩ =>
    let r := c.scan st
    let st1 := merge st .Scanner (.scan r.errors r.warnings r.executionTime)
    if st1.errors = [] then ⟨.Done, st1, some .noErrors⟩ else ⟨.Fixing, st1, oc⟩
  | ⟨.Fixing, st, oc⟩ =>
    let r := c.fix st
    ⟨.Validating, merge st .Fixer (.fix r.changes r.fixedCode r.executionTime), oc⟩
  | ⟨.Validating, st, oc⟩ =>
    let r := c.validate st
    let st1 := merge st .Validator (.validated r.result r.executionTime)
    if r.result.status = .approved then ⟨.Done, st1, some .approvedFix⟩
    else if st1.maxIterations ≤ st1.iteration then
      ⟨.Done, st1, some .iterationLimit⟩
    else ⟨.Scanning, { st1 with iteration := st1.iteration + 1 }, oc⟩
  | ⟨.Done, st, oc⟩ => ⟨.Done, st, oc⟩

/-- Modelled from the spec: the client submits `(code, language, context)`
(sections 2, 6). -/
structure DebugRequest where
  code : String
  language : String
  context : Option String
deriving DecidableEq, Repr

/-- Modelled from the spec: the fresh `RunState` the Orchestrator creates when
a debug request arrives (section 3): `currentCode` starts equal to `code`,
`iteration` starts at 0, the collections start empty, `validation` unset. -/
def initState (req : DebugRequest) (maxIterations : Nat) (runId : String) :
    RunState :=
  { runId := runId
    code := req.code
    language := req.language
    context := req.context
    errors := []
    warnings := []
    changes := []
    currentCode := req.code
    validation := none
    iteration := 0
    maxIterations := maxIterations
    history := [] }

/-- Modelled from the spec: the initial Orchestrator configuration — Router at
`Start` over the fresh run state (section 4.4). -/
def initConfig (req : DebugRequest) (maxIterations : Nat) (runId : String) :
    Config :=
  ⟨.Start, initState req maxIterations runId, none⟩

/-- Modelled from the spec: number of loop passes after which the Orchestrator
is guaranteed to have reached `Done` — one `Start` pass plus at most
`3 * (maxIterations + 1)` stage invocations. -/
def fuelBound (maxIterations : Nat) : Nat := 3 * maxIterations + 4

/-- Modelled from the spec: the run state at termination; `Done` is absorbing,
so iterating `fuelBound` times lands on the terminal snapshot. -/
def finalState (c : Collaborators) (req : DebugRequest) (m : Nat)
    (rid : String) : RunState :=
  ((step c)^[fuelBound m] (initConfig req m rid)).st

/-- Modelled from the spec: a measure on configurations that strictly decreases
at every Orchestrator pass before `Done`, bounding the number of passes. -/
def stepsLeft : Config → Nat
  | ⟨.Start, st, _⟩ => 3 * (st.maxIterations - st.iteration) + 4
  | ⟨.Scanning, st, _⟩ => 3 * (st.maxIterations - st.iteration) + 3
  | ⟨.Fixing, st, _⟩ => 3 * (st.maxIterations - st.iteration) + 2
  | ⟨.Validating, st, _⟩ => 3 * (st.maxIterations - st.iteration) + 1
  | ⟨.Done, _, _⟩ => 0

/-- Modelled from the spec: an upper bound on the stage invocations a
configuration can still perform; `Start` performs none itself. -/
def invocationsLeft : Config → Nat
  | ⟨.Start, st, _⟩ => 3 * (st.maxIterations - st.iteration) + 3
  | ⟨.Scanning, st, _⟩ => 3 * (st.maxIterations - st.iteration) + 3
  | ⟨.Fixing, st, _⟩ => 3 * (st.maxIterations - st.iteration) + 2
  | ⟨.Validating, st, _⟩ => 3 * (st.maxIterations - st.iteration) + 1
  | ⟨.Done, _, _⟩ => 0

/-- Modelled from the spec: invoking the Reducer with the same triple twice in
isolation (section 8's idempotence property): both invocations' results,
side by side. -/
def mergeTwice (state : RunState) (stageName : StageName)
    (output : StageOutput) : RunState × RunState :=
  (merge state stageName output, merge state stageName output)

/-! ## Client, translated from the frontend sources -/

namespace Client

/-- JavaScript whitespace as tested by `String.prototype.trim`: space and the
usual control whitespace characters. -/
def isSpace (ch : Char) : Bool :=
  ch = ' ' || (9 ≤ ch.toNat && ch.toNat ≤ 13)

/-- The JavaScript `code.trim()` used by `handleDebug` and the Debug button:
strips leading and trailing whitespace.  (Defined over the character list so
that it evaluates on concrete inputs.) -/
def trim (s : String) : String :=
  ⟨((s.data.dropWhile isSpace).reverse.dropWhile isSpace).reverse⟩

/-- From `Debugger.jsx` / `App.jsx`: the `streamingStatus` objects built by
`handleDebug` and `handleStreamEvent` — optional `agent`, a `message`, and an
optional `status` string (`'working'` / `'complete'`). -/
structure StreamingStatus where
  agent : Option String
  message : String
  status : Option String
deriving DecidableEq, Repr

/-- From `Debugger.jsx` / `App.jsx`: one server-sent event as consumed by
`handleStreamEvent` — a `type` tag plus `agent`, `message` and `result`
payload fields.  The payload type is a parameter, the client treats it
opaquely. -/
structure StreamEvent (ρ : Type) where
  type : String
  agent : String
  message : String
  result : ρ
deriving DecidableEq, Repr

/-- From `Debugger.jsx`: the React state of the `Debugger` component —
`code`, `language`, `context`, `isLoading`, `result`, `error`,
`streamingStatus` and `agentResults`. -/
structure ClientState (ρ : Type) where
  code : String
  language : String
  context : String
  isLoading : Bool
  result : Option ρ
  error : Option String
  streamingStatus : Option StreamingStatus
  agentResults : List (String × ρ)
deriving DecidableEq, Repr

/-- From `Debugger.jsx` line 90 / `App.jsx`: the JavaScript object spread
`{ ...prev, [event.agent]: event.result }` — an existing key keeps its
position and is overwritten, a new key is appended. -/
def setKey (k : String) (v : ρ) : List (String × ρ) → List (String × ρ)
  | [] => [(k, v)]
  | (k', v') :: rest =>
    if k' = k then (k, v) :: rest else (k', v') :: setKey k v rest

/-- Property access `obj[k]` on the accumulated `agentResults` object. -/
def lookupKey (k : String) : List (String × ρ) → Option ρ
  | [] => none
  | (k', v') :: rest => if k' = k then some v' else lookupKey k rest

/-- From `Debugger.jsx` lines 84-102 (and `App.jsx` lines 371-406, identical
on these cases): the switch over `event.type`.  An unrecognized type changes
nothing (the legacy `App.jsx` only logs it). -/
def handleStreamEvent (event : StreamEvent ρ) (s : ClientState ρ) :
    ClientState ρ :=
  if event.type = "agent_start" then
    { s with streamingStatus := some ⟨some event.agent, event.message, some "working"⟩ }
  else if event.type = "agent_complete" then
    { s with
        agentResults := setKey event.agent event.result s.agentResults,
        streamingStatus := some ⟨some event.agent, event.message, some "complete"⟩ }
  else if event.type = "workflow_complete" then
    { s with result := some event.result, streamingStatus := none }
  else if event.type = "error" then
    { s with error := some event.message, streamingStatus := none }
  else s

/-- From `Debugger.jsx` lines 31-41: the synchronous prefix of `handleDebug`
before any network activity — on empty trimmed code it sets the error message
and returns without issuing a request; otherwise it resets the state and
proceeds to the fetch.  The boolean records whether the network request is
issued. -/
def handleDebug (s : ClientState ρ) : ClientState ρ × Bool :=
  if trim s.code = "" then
    ({ s with error := some "Please enter some code to debug" }, false)
  else
    ({ s with
        isLoading := true
        error := none
        result := none
        streamingStatus := some ⟨none, "Connecting to server...", none⟩
        agentResults := [] }, true)

/-- From `Debugger.jsx` line 160: `disabled={isLoading || !code.trim()}` on
the Debug button. -/
def debugDisabled (s : ClientState ρ) : Bool :=
  s.isLoading || (trim s.code == "")

/-- From `Debugger.jsx` line 11: the language options offered by the
`Debugger` component. -/
def LANGUAGES : List String := ["python", "javascript", "java", "cpp", "go"]

/-- From `App.jsx` lines 433-438: the `<option>` values of the legacy `App`
component's language select. -/
def appLanguageOptions : List String :=
  ["python", "javascript", "typescript", "java", "cpp", "go"]

/-- The spec's words (section 6): `language` is drawn from the enumeration
`{python, javascript, java, cpp, go}` — stated separately for comparison with
the definitions taken from the sources. -/
def specLanguageEnum : List String :=
  ["python", "javascript", "java", "cpp", "go"]

end Client

/-! ## Streaming events, modelled from the spec -/

/-- Modelled from the spec: the terminal projection of `RunState` returned by
the synchronous endpoint and carried by `workflow_complete` (section 6):
final code, error/warning lists, changes, validation, iteration count. -/
structure Projection where
  fixedCode : String
  errors : List Finding
  warnings : List Finding
  changes : List Edit
  validation : Option ValidationResult
  iterations : Nat
deriving DecidableEq, Repr

/-- Modelled from the spec: the projection of a run state (section 6). -/
def project (st : RunState) : Projection :=
  ⟨st.currentCode, st.errors, st.warnings, st.changes, st.validation,
    st.iteration⟩

/-- Modelled from the spec: the agent name attached to the stage running in a
given Router state (sections 4.3, 6). -/
def agentLabel : RouterState → String
  | .Scanning => "Scanner"
  | .Fixing => "Fixer"
  | .Validating => "Validator"
  | _ => ""

/-- Modelled from the spec: the `agent_start` / `agent_complete` pair the
streaming endpoint emits around one stage invocation (sections 4.4, 6); the
per-agent payload content is left unconstrained. -/
def stepEvents (cfg : Config) : List (Client.StreamEvent (Option Projection)) :=
  match cfg.rs with
  | .Start => []
  | .Done => []
  | rs =>
    [⟨"agent_start", agentLabel rs, "running", none⟩,
     ⟨"agent_complete", agentLabel rs, "complete", none⟩]

/-- Modelled from the spec: the ordered event stream of a run — per-stage
event pairs while the Orchestrator loops, then one `workflow_complete`
carrying the terminal projection (sections 4.4, 6). -/
def runEventsAux (c : Collaborators) : Nat → Config →
    List (Client.StreamEvent (Option Projection))
  | 0, _ => []
  | fuel + 1, cfg =>
    if cfg.rs = .Done then
      [⟨"workflow_complete", "", "done", some (project cfg.st)⟩]
    else stepEvents cfg ++ runEventsAux c fuel (step c cfg)

/-- Modelled from the spec: the full event stream of one run (section 6). -/
def runEvents (c : Collaborators) (req : DebugRequest) (m : Nat)
    (rid : String) : List (Client.StreamEvent (Option Projection)) :=
  runEventsAux c (fuelBound m + 1) (initConfig req m rid)

/-! ## Concrete collaborators, requests and client states for witnesses -/

/-- A collaborator triple that always finds one error, always proposes the
same fix, and never approves — the adversarial schedule behind the iteration
ceiling scenarios. -/
def alwaysBuggy : Collaborators where
  scan := fun _ => ⟨[⟨1, "syntax", 1, "missing colon", none⟩], [], 1⟩
  fix := fun _ => ⟨[⟨1, "def f(a, b)", "def f(a, b):", "add colon"⟩], "y", 1⟩
  validate := fun _ => ⟨⟨.needs_revision, 1 / 2, ["check"]⟩, 1⟩

/-- A collaborator triple whose Scanner finds nothing — the clean first-pass
scenario. -/
def cleanRun : Collaborators where
  scan := fun _ => ⟨[], [], 1⟩
  fix := fun _ => ⟨[], "y", 1⟩
  validate := fun _ => ⟨⟨.approved, 1, []⟩, 1⟩

/-- The request of Scenario A. -/
def demoRequest : DebugRequest := ⟨"print(\x27ok\x27)", "python", none⟩

/-- A concrete client state with nonempty code, for witnesses. -/
def demoClientState : Client.ClientState Nat :=
  { code := "x = 1"
    language := "python"
    context := ""
    isLoading := false
    result := none
    error := none
    streamingStatus := none
    agentResults := [("Scanner", 7)] }

/-- A concrete client state whose code is whitespace only. -/
def blankClientState : Client.ClientState Nat :=
  { demoClientState with code := "   " }

/-- The run state after the Scanner adapter's output is merged into `st`. -/
def scanState (c : Collaborators) (st : RunState) : RunState :=
  merge st .Scanner
    (.scan (c.scan st).errors (c.scan st).warnings (c.scan st).executionTime)

/-- The run state after the Fixer adapter's output is merged into `st`. -/
def fixState (c : Collaborators) (st : RunState) : RunState :=
  merge st .Fixer
    (.fix (c.fix st).changes (c.fix st).fixedCode (c.fix st).executionTime)

/-- The run state after the Validator adapter's output is merged into `st`. -/
def valState (c : Collaborators) (st : RunState) : RunState :=
  merge st .Validator
    (.validated (c.validate st).result (c.validate st).executionTime)

/-- The run state after one full `Scanning → Fixing → Validating → Scanning`
retry cycle: three merges and the Orchestrator's iteration increment. -/
def retryState (c : Collaborators) (st : RunState) : RunState :=
  { valState c (fixState c (scanState c st)) with iteration := st.iteration + 1 }

/-- The number of Scanner invocations recorded in a run state's history. -/
def scannerCount (st : RunState) : Nat :=
  st.history.countP (fun e => e.stage = .Scanner)

/-! ## Reducer lemmas -/

theorem merge_iteration (s : RunState) (n : StageName) (o : StageOutput) :
    (merge s n o).iteration = s.iteration := by
  cases o <;> rfl

theorem merge_maxIterations (s : RunState) (n : StageName) (o : StageOutput) :
    (merge s n o).maxIterations = s.maxIterations := by
  cases o <;> rfl

theorem merge_history (s : RunState) (n : StageName) (o : StageOutput) :
    (merge s n o).history = s.history ++ [historyEntry n o] := by
  cases o <;> rfl

/-! ## Router step lemmas -/

theorem step_start (c : Collaborators) (st : RunState) (oc : Option Outcome) :
    step c ⟨.Start, st, oc⟩ = ⟨.Scanning, st, oc⟩ := rfl

theorem step_done (c : Collaborators) (st : RunState) (oc : Option Outcome) :
    step c ⟨.Done, st, oc⟩ = ⟨.Done, st, oc⟩ := rfl

theorem step_done_config (c : Collaborators) (cfg : Config)
    (h : cfg.rs = .Done) : step c cfg = cfg := by
  obtain ⟨rs, st, oc⟩ := cfg
  cases h
  rfl

theorem iterate_done (c : Collaborators) (cfg : Config) (h : cfg.rs = .Done) :
    ∀ j, (step c)^[j] cfg = cfg := by
  intro j
  induction j with
  | zero => rfl
  | succ j ih => rw [Function.iterate_succ_apply, step_done_config c cfg h]; exact ih

theorem step_scanning_clean (c : Collaborators) (st : RunState)
    (oc : Option Outcome) (h : (c.scan st).errors = []) :
    step c ⟨.Scanning, st, oc⟩ = ⟨.Done, scanState c st, some .noErrors⟩ := by
  simp only [step]
  exact if_pos h

theorem step_scanning_buggy (c : Collaborators) (st : RunState)
    (oc : Option Outcome) (h : (c.scan st).errors ≠ []) :
    step c ⟨.Scanning, st, oc⟩ = ⟨.Fixing, scanState c st, oc⟩ := by
  simp only [step]
  exact if_neg h

theorem step_fixing (c : Collaborators) (st : RunState) (oc : Option Outcome) :
    step c ⟨.Fixing, st, oc⟩ = ⟨.Validating, fixState c st, oc⟩ := rfl

theorem step_validating_approved (c : Collaborators) (st : RunState)
    (oc : Option Outcome) (h : (c.validate st).result.status = .approved) :
    step c ⟨.Validating, st, oc⟩ = ⟨.Done, valState c st, some .approvedFix⟩ := by
  simp only [step]
  exact if_pos h

theorem step_validating_limit (c : Collaborators) (st : RunState)
    (oc : Option Outcome) (h1 : (c.validate st).result.status ≠ .approved)
    (h2 : st.maxIterations ≤ st.iteration) :
    step c ⟨.Validating, st, oc⟩ = ⟨.Done, valState c st, some .iterationLimit⟩ := by
  simp only [step]
  rw [if_neg h1]
  exact if_pos h2

theorem step_validating_retry (c : Collaborators) (st : RunState)
    (oc : Option Outcome) (h1 : (c.validate st).result.status ≠ .approved)
    (h2 : st.iteration < st.maxIterations) :
    step c ⟨.Validating, st, oc⟩ =
      ⟨.Scanning, { valState c st with iteration := st.iteration + 1 }, oc⟩ := by
  simp only [step]
  rw [if_neg h1]
  exact (if_neg (not_le.mpr h2)).trans rfl

/-! ## The iteration ceiling invariant -/

theorem step_iteration_le (c : Collaborators) (cfg : Config)
    (h : cfg.st.iteration ≤ cfg.st.maxIterations) :
    (step c cfg).st.iteration ≤ (step c cfg).st.maxIterations := by
  obtain ⟨rs, st, oc⟩ := cfg
  cases rs
  case Start => exact h
  case Scanning =>
    by_cases hc : (c.scan st).errors = []
    · rw [step_scanning_clean c st oc hc]; exact h
    · rw [step_scanning_buggy c st oc hc]; exact h
  case Fixing =>
    rw [step_fixing]; exact h
  case Validating =>
    by_cases h1 : (c.validate st).result.status = .approved
    · rw [step_validating_approved c st oc h1]; exact h
    · by_cases h2 : st.iteration < st.maxIterations
      · rw [step_validating_retry c st oc h1 h2]
        show st.iteration + 1 ≤ st.maxIterations
        omega
      · rw [step_validating_limit c st oc h1 (by omega)]; exact h
  case Done => exact h

theorem iterate_iteration_le (c : Collaborators) (n : Nat) (cfg : Config)
    (h : cfg.st.iteration ≤ cfg.st.maxIterations) :
    ((step c)^[n] cfg).st.iteration ≤ ((step c)^[n] cfg).st.maxIterations := by
  induction n generalizing cfg with
  | zero => exact h
  | succ n ih =>
    rw [Function.iterate_succ_apply]
    exact ih _ (step_iteration_le c cfg h)

theorem step_maxIterations (c : Collaborators) (cfg : Config) :
    (step c cfg).st.maxIterations = cfg.st.maxIterations := by
  obtain ⟨rs, st, oc⟩ := cfg
  cases rs
  case Start => rfl
  case Scanning =>
    by_cases hc : (c.scan st).errors = []
    · rw [step_scanning_clean c st oc hc]; rfl
    · rw [step_scanning_buggy c st oc hc]; rfl
  case Fixing => rfl
  case Validating =>
    by_cases h1 : (c.validate st).result.status = .approved
    · rw [step_validating_approved c st oc h1]; rfl
    · by_cases h2 : st.iteration < st.maxIterations
      · rw [step_validating_retry c st oc h1 h2]; rfl
      · rw [step_validating_limit c st oc h1 (by omega)]; rfl
  case Done => rfl

theorem iterate_maxIterations (c : Collaborators) (n : Nat) (cfg : Config) :
    ((step c)^[n] cfg).st.maxIterations = cfg.st.maxIterations := by
  induction n generalizing cfg with
  | zero => rfl
  | succ n ih =>
    rw [Function.iterate_succ_apply, ih, step_maxIterations]

/-- C1: at every point of every run, whatever the Scanner, Fixer and
Validator collaborators return, `iteration` never exceeds `maxIterations`
(which stays the configured ceiling `m`): the Router's `Validating` edge
increments `iteration` only under the guard `iteration < maxIterations` and
otherwise forces termination. -/
theorem iteration_le_maxIterations (c : Collaborators) (req : DebugRequest)
    (m : Nat) (rid : String) (n : Nat) :
    ((step c)^[n] (initConfig req m rid)).st.iteration ≤
      ((step c)^[n] (initConfig req m rid)).st.maxIterations ∧
    ((step c)^[n] (initConfig req m rid)).st.maxIterations = m := by
  refine ⟨iterate_iteration_le c n _ (Nat.zero_le m), ?_⟩
  rw [iterate_maxIterations]
  rfl

/-! ## Termination measures -/

theorem stepsLeft_step (c : Collaborators) (cfg : Config)
    (h : cfg.rs ≠ .Done) : stepsLeft (step c cfg) < stepsLeft cfg := by
  obtain ⟨rs, st, oc⟩ := cfg
  cases rs
  case Start =>
    rw [step_start]
    show 3 * (st.maxIterations - st.iteration) + 3 <
      3 * (st.maxIterations - st.iteration) + 4
    omega
  case Scanning =>
    by_cases hc : (c.scan st).errors = []
    · rw [step_scanning_clean c st oc hc]
      show 0 < 3 * (st.maxIterations - st.iteration) + 3
      omega
    · rw [step_scanning_buggy c st oc hc]
      show 3 * (st.maxIterations - st.iteration) + 2 <
        3 * (st.maxIterations - st.iteration) + 3
      omega
  case Fixing =>
    rw [step_fixing]
    show 3 * (st.maxIterations - st.iteration) + 1 <
      3 * (st.maxIterations - st.iteration) + 2
    omega
  case Validating =>
    by_cases h1 : (c.validate st).result.status = .approved
    · rw [step_validating_approved c st oc h1]
      show 0 < 3 * (st.maxIterations - st.iteration) + 1
      omega
    · by_cases h2 : st.iteration < st.maxIterations
      · rw [step_validating_retry c st oc h1 h2]
        show 3 * (st.maxIterations - (st.iteration + 1)) + 3 <
          3 * (st.maxIterations - st.iteration) + 1
        omega
      · rw [step_validating_limit c st oc h1 (by omega)]
        show 0 < 3 * (st.maxIterations - st.iteration) + 1
        omega
  case Done => exact absurd rfl h

theorem done_of_stepsLeft_le (c : Collaborators) :
    ∀ (n : Nat) (cfg : Config), stepsLeft cfg ≤ n →
      ((step c)^[n] cfg).rs = .Done := by
  intro n
  induction n with
  | zero =>
    intro cfg h
    obtain ⟨rs, st, oc⟩ := cfg
    cases rs
    case Done => rfl
    all_goals
      exfalso
      simp only [stepsLeft] at h
      omega
  | succ n ih =>
    intro cfg h
    by_cases hd : cfg.rs = .Done
    · rw [iterate_done c cfg hd]; exact hd
    · rw [Function.iterate_succ_apply]
      exact ih _ (by have := stepsLeft_step c cfg hd; omega)

theorem invocations_step (c : Collaborators) (cfg : Config) :
    (step c cfg).st.history.length + invocationsLeft (step c cfg) ≤
      cfg.st.history.length + invocationsLeft cfg := by
  obtain ⟨rs, st, oc⟩ := cfg
  cases rs
  case Start =>
    rw [step_start]
    show st.history.length + (3 * (st.maxIterations - st.iteration) + 3) ≤
      st.history.length + (3 * (st.maxIterations - st.iteration) + 3)
    omega
  case Scanning =>
    by_cases hc : (c.scan st).errors = []
    · rw [step_scanning_clean c st oc hc]
      show (st.history ++ [_]).length + 0 ≤
        st.history.length + (3 * (st.maxIterations - st.iteration) + 3)
      simp only [List.length_append, List.length_singleton]
      omega
    · rw [step_scanning_buggy c st oc hc]
      show (st.history ++ [_]).length +
          (3 * (st.maxIterations - st.iteration) + 2) ≤
        st.history.length + (3 * (st.maxIterations - st.iteration) + 3)
      simp only [List.length_append, List.length_singleton]
      omega
  case Fixing =>
    rw [step_fixing]
    show (st.history ++ [_]).length + (3 * (st.maxIterations - st.iteration) + 1) ≤
      st.history.length + (3 * (st.maxIterations - st.iteration) + 2)
    simp only [List.length_append, List.length_singleton]
    omega
  case Validating =>
    by_cases h1 : (c.validate st).result.status = .approved
    · rw [step_validating_approved c st oc h1]
      show (st.history ++ [_]).length + 0 ≤
        st.history.length + (3 * (st.maxIterations - st.iteration) + 1)
      simp only [List.length_append, List.length_singleton]
      omega
    · by_cases h2 : st.iteration < st.maxIterations
      · rw [step_validating_retry c st oc h1 h2]
        show (st.history ++ [_]).length +
            (3 * (st.maxIterations - (st.iteration + 1)) + 3) ≤
          st.history.length + (3 * (st.maxIterations - st.iteration) + 1)
        simp only [List.length_append, List.length_singleton]
        omega
      · rw [step_validating_limit c st oc h1 (by omega)]
        show (st.history ++ [_]).length + 0 ≤
          st.history.length + (3 * (st.maxIterations - st.iteration) + 1)
        simp only [List.length_append, List.length_singleton]
        omega
  case Done =>
    rw [step_done]

theorem iterate_invocations (c : Collaborators) (n : Nat) (cfg : Config) :
    ((step c)^[n] cfg).st.history.length + invocationsLeft ((step c)^[n] cfg) ≤
      cfg.st.history.length + invocationsLeft cfg := by
  induction n generalizing cfg with
  | zero => exact le_refl _
  | succ n ih =>
    rw [Function.iterate_succ_apply]
    exact le_trans (ih _) (invocations_step c cfg)

/-- C2 (amended): for every run, whatever the collaborators return, the Router
reaches `Done` within `3 + 3*maxIterations` stage invocations — one loop pass
for `Start` plus at most `3*(maxIterations+1)` invoking passes — but not
always within the claimed `3 + 2*maxIterations`: each retry re-runs the
Scanner as well as the Fixer and the Validator, so a retry cycle costs three
invocations, not two (`router_bound_counterexample`).  The invocation count is
read off as the history length, one entry per stage invocation. -/
theorem router_terminates_bounded (c : Collaborators) (req : DebugRequest)
    (m : Nat) (rid : String) :
    ((step c)^[fuelBound m] (initConfig req m rid)).rs = .Done ∧
    ((step c)^[fuelBound m] (initConfig req m rid)).st.history.length ≤
      3 * m + 3 := by
  constructor
  · apply done_of_stepsLeft_le
    show 3 * (m - 0) + 4 ≤ fuelBound m
    show 3 * (m - 0) + 4 ≤ 3 * m + 4
    omega
  · have h := iterate_invocations c (fuelBound m) (initConfig req m rid)
    have h0 : (initConfig req m rid).st.history.length = 0 := rfl
    have h1 : invocationsLeft (initConfig req m rid) = 3 * (m - 0) + 3 := rfl
    omega

/-- C2 counterexample: with `maxIterations = 1` and collaborators that always
report an error and never approve, the run has performed `3 + 2*1 = 5` stage
invocations (history length 5, one loop pass for `Start` plus five invoking
passes) and the Router is still not at `Done`; it reaches `Done` only after a
sixth invocation. -/
theorem router_bound_counterexample :
    ((step alwaysBuggy)^[1 + (3 + 2 * 1)] (initConfig demoRequest 1 "r1")).rs ≠
      .Done ∧
    ((step alwaysBuggy)^[1 + (3 + 2 * 1)]
      (initConfig demoRequest 1 "r1")).st.history.length = 3 + 2 * 1 ∧
    ((step alwaysBuggy)^[7] (initConfig demoRequest 1 "r1")).rs = .Done ∧
    ((step alwaysBuggy)^[7]
      (initConfig demoRequest 1 "r1")).st.history.length = 6 := by
  refine ⟨by decide, by decide, by decide, by decide⟩

/-! ## Reducer determinism and history -/

theorem mergeSeq_history (s : RunState) (l : List (StageName × StageOutput)) :
    (mergeSeq s l).history =
      s.history ++ l.map (fun p => historyEntry p.1 p.2) := by
  induction l generalizing s with
  | nil => simp [mergeSeq]
  | cons p rest ih =>
    obtain ⟨n, o⟩ := p
    rw [mergeSeq, ih, merge_history]
    simp

/-- C5: the Reducer is a pure, deterministic function of its
`(state, stageName, output)` triple — equal triples give equal `newState`,
and invoking it twice in isolation on the same triple (`mergeTwice`) yields
identical `newState` both times. -/
theorem merge_deterministic (s₁ s₂ : RunState) (n₁ n₂ : StageName)
    (o₁ o₂ : StageOutput) (hs : s₁ = s₂) (hn : n₁ = n₂) (ho : o₁ = o₂) :
    merge s₁ n₁ o₁ = merge s₂ n₂ o₂ ∧
    (mergeTwice s₁ n₁ o₁).1 = (mergeTwice s₁ n₁ o₁).2 := by
  subst hs
  subst hn
  subst ho
  exact ⟨rfl, rfl⟩

/-- C5 witness: the determinism theorem applied at a concrete triple. -/
theorem merge_deterministic_witness :
    merge (initState demoRequest 3 "w5") .Scanner (.scan [] [] 1) =
      merge (initState demoRequest 3 "w5") .Scanner (.scan [] [] 1) ∧
    (mergeTwice (initState demoRequest 3 "w5") .Scanner (.scan [] [] 1)).1 =
      (mergeTwice (initState demoRequest 3 "w5") .Scanner (.scan [] [] 1)).2 :=
  merge_deterministic _ _ _ _ _ _ rfl rfl rfl

/-- C6: `history` is append-only — each Reducer merge appends exactly one
entry at the tail, a sequence of merges appends exactly its list of entries in
order (so earlier entries are never removed or reordered and the length is
monotonically non-decreasing), and starting from the fresh run state the
history length equals the number of stage invocations merged. -/
theorem history_append_only (s : RunState) (n : StageName) (o : StageOutput)
    (l : List (StageName × StageOutput)) (req : DebugRequest) (m : Nat)
    (rid : String) :
    (merge s n o).history = s.history ++ [historyEntry n o] ∧
    (mergeSeq s l).history =
      s.history ++ l.map (fun p => historyEntry p.1 p.2) ∧
    (mergeSeq (initState req m rid) l).history.length = l.length := by
  refine ⟨merge_history s n o, mergeSeq_history s l, ?_⟩
  rw [mergeSeq_history]
  simp [initState]


/-! ## First-pass and scenario runs -/

theorem historyEntry_stage (n : StageName) (o : StageOutput) :
    (historyEntry n o).stage = n := by
  cases o <;> rfl

theorem scannerCount_merge (s : RunState) (n : StageName) (o : StageOutput) :
    scannerCount (merge s n o) =
      scannerCount s + (if n = .Scanner then 1 else 0) := by
  unfold scannerCount
  rw [merge_history, List.countP_append]
  simp [List.countP_cons, historyEntry_stage]

theorem scannerCount_cycleState (c : Collaborators) (st : RunState) :
    scannerCount (valState c (fixState c (scanState c st))) =
      scannerCount st + 1 := by
  simp only [valState, fixState, scanState, scannerCount_merge]
  simp

theorem scannerCount_retryState (c : Collaborators) (st : RunState) :
    scannerCount (retryState c st) = scannerCount st + 1 := by
  have h : (retryState c st).history =
      (valState c (fixState c (scanState c st))).history := rfl
  unfold scannerCount at *
  rw [h]
  exact scannerCount_cycleState c st

theorem cycle_retry (c : Collaborators) (st : RunState) (oc : Option Outcome)
    (hscan : (c.scan st).errors ≠ [])
    (hval : (c.validate (fixState c (scanState c st))).result.status ≠ .approved)
    (hlt : st.iteration < st.maxIterations) :
    (step c)^[3] ⟨.Scanning, st, oc⟩ = ⟨.Scanning, retryState c st, oc⟩ := by
  show step c (step c (step c ⟨.Scanning, st, oc⟩)) = _
  rw [step_scanning_buggy c st oc hscan, step_fixing,
    step_validating_retry c _ oc hval hlt]
  rfl

theorem cycle_limit (c : Collaborators) (st : RunState) (oc : Option Outcome)
    (hscan : (c.scan st).errors ≠ [])
    (hval : (c.validate (fixState c (scanState c st))).result.status ≠ .approved)
    (hge : st.maxIterations ≤ st.iteration) :
    (step c)^[3] ⟨.Scanning, st, oc⟩ =
      ⟨.Done, valState c (fixState c (scanState c st)), some .iterationLimit⟩ := by
  show step c (step c (step c ⟨.Scanning, st, oc⟩)) = _
  rw [step_scanning_buggy c st oc hscan, step_fixing,
    step_validating_limit c _ oc hval hge]

/-- C4: if the first Scanner invocation reports zero errors, the run ends at
`Done` after exactly one stage invocation (history length 1), with
`currentCode` still the submitted code, `iteration = 0`, `validation` unset,
and the no-errors terminal outcome. -/
theorem clean_first_scan (c : Collaborators) (req : DebugRequest) (m : Nat)
    (rid : String) (h : (c.scan (initState req m rid)).errors = []) :
    ((step c)^[2] (initConfig req m rid)).rs = .Done ∧
    ((step c)^[2] (initConfig req m rid)).st.currentCode = req.code ∧
    ((step c)^[2] (initConfig req m rid)).st.iteration = 0 ∧
    ((step c)^[2] (initConfig req m rid)).st.validation = none ∧
    ((step c)^[2] (initConfig req m rid)).st.history.length = 1 ∧
    ((step c)^[2] (initConfig req m rid)).outcome = some .noErrors := by
  have e2 : (step c)^[2] (initConfig req m rid) =
      ⟨.Done, scanState c (initState req m rid), some .noErrors⟩ := by
    show step c (step c (initConfig req m rid)) = _
    rw [show step c (initConfig req m rid) =
        ⟨.Scanning, initState req m rid, none⟩ from rfl]
    exact step_scanning_clean c _ none h
  rw [e2]
  exact ⟨rfl, rfl, rfl, rfl, rfl, rfl⟩

/-- C4 witness: the clean-first-scan theorem at the concrete `cleanRun`
collaborators and Scenario A request. -/
theorem clean_first_scan_witness :
    (cleanRun.scan (initState demoRequest 3 "wa")).errors = [] ∧
    (((step cleanRun)^[2] (initConfig demoRequest 3 "wa")).rs = .Done ∧
      ((step cleanRun)^[2] (initConfig demoRequest 3 "wa")).st.currentCode =
        demoRequest.code ∧
      ((step cleanRun)^[2] (initConfig demoRequest 3 "wa")).st.iteration = 0 ∧
      ((step cleanRun)^[2] (initConfig demoRequest 3 "wa")).st.validation =
        none ∧
      ((step cleanRun)^[2]
        (initConfig demoRequest 3 "wa")).st.history.length = 1 ∧
      ((step cleanRun)^[2] (initConfig demoRequest 3 "wa")).outcome =
        some .noErrors) :=
  ⟨rfl, clean_first_scan cleanRun demoRequest 3 "wa" rfl⟩

/-- C3 counterexample: with `maxIterations = 2` and collaborators that always
report an error and always return `needs_revision`, the configuration reached
immediately after the second Validator call (seven loop passes) is `Scanning`,
not `Done` — the Router schedules a third cycle — and the completed run's
history records three Scanner invocations. -/
theorem scenarioC_counterexample :
    ((step alwaysBuggy)^[7] (initConfig demoRequest 2 "r2")).rs = .Scanning ∧
    ((step alwaysBuggy)^[7] (initConfig demoRequest 2 "r2")).st.iteration = 2 ∧
    ((step alwaysBuggy)^[10] (initConfig demoRequest 2 "r2")).rs = .Done ∧
    ((step alwaysBuggy)^[10] (initConfig demoRequest 2 "r2")).outcome =
      some .iterationLimit ∧
    scannerCount ((step alwaysBuggy)^[10] (initConfig demoRequest 2 "r2")).st =
      3 := by
  refine ⟨by decide, by decide, by decide, by decide, by decide⟩

/-- C3 (amended): with `maxIterations = 2`, when the Scanner keeps finding
errors and the Validator returns `needs_revision` on its first two (and, as
forced, third) invocations, the run does not stop at the second Validator
call: immediately after it the Router is back at `Scanning` with
`iteration = 2`, a third Scanner (and Fixer and Validator) invocation is
made, and the run then terminates at `Done` via `IterationLimitReached` with
`iteration = 2` and three Scanner invocations recorded. -/
theorem scenarioC_amended (c : Collaborators) (req : DebugRequest)
    (rid : String)
    (h1 : (c.scan ((step c)^[1] (initConfig req 2 rid)).st).errors ≠ [])
    (h2 : (c.validate ((step c)^[3] (initConfig req 2 rid)).st).result.status =
      .needs_revision)
    (h3 : (c.scan ((step c)^[4] (initConfig req 2 rid)).st).errors ≠ [])
    (h4 : (c.validate ((step c)^[6] (initConfig req 2 rid)).st).result.status =
      .needs_revision)
    (h5 : (c.scan ((step c)^[7] (initConfig req 2 rid)).st).errors ≠ [])
    (h6 : (c.validate ((step c)^[9] (initConfig req 2 rid)).st).result.status =
      .needs_revision) :
    ((step c)^[7] (initConfig req 2 rid)).rs = .Scanning ∧
    ((step c)^[7] (initConfig req 2 rid)).st.iteration = 2 ∧
    ((step c)^[10] (initConfig req 2 rid)).rs = .Done ∧
    ((step c)^[10] (initConfig req 2 rid)).outcome = some .iterationLimit ∧
    ((step c)^[10] (initConfig req 2 rid)).st.iteration = 2 ∧
    scannerCount ((step c)^[10] (initConfig req 2 rid)).st = 3 := by
  have h1f : (c.scan (initState req 2 rid)).errors ≠ [] := h1
  have e3 : (step c)^[3] (initConfig req 2 rid) =
      ⟨.Validating, fixState c (scanState c (initState req 2 rid)), none⟩ := by
    show (step c)^[2] ((step c)^[1] (initConfig req 2 rid)) = _
    rw [show (step c)^[1] (initConfig req 2 rid) =
        ⟨.Scanning, initState req 2 rid, none⟩ from rfl]
    show step c (step c ⟨.Scanning, initState req 2 rid, none⟩) = _
    rw [step_scanning_buggy c _ none h1f, step_fixing]
  have h2f : (c.validate (fixState c (scanState c
      (initState req 2 rid)))).result.status ≠ .approved := by
    rw [e3] at h2
    have h2y : (c.validate (fixState c (scanState c
        (initState req 2 rid)))).result.status = .needs_revision := h2
    rw [h2y]
    decide
  have e4 : (step c)^[4] (initConfig req 2 rid) =
      ⟨.Scanning, retryState c (initState req 2 rid), none⟩ := by
    show (step c)^[3] ((step c)^[1] (initConfig req 2 rid)) = _
    rw [show (step c)^[1] (initConfig req 2 rid) =
        ⟨.Scanning, initState req 2 rid, none⟩ from rfl]
    exact cycle_retry c _ none h1f h2f (by show (0 : Nat) < 2; decide)
  have h3f : (c.scan (retryState c (initState req 2 rid))).errors ≠ [] := by
    rw [e4] at h3
    exact h3
  have e6 : (step c)^[6] (initConfig req 2 rid) =
      ⟨.Validating,
        fixState c (scanState c (retryState c (initState req 2 rid))),
        none⟩ := by
    show (step c)^[2] ((step c)^[4] (initConfig req 2 rid)) = _
    rw [e4]
    show step c (step c ⟨.Scanning, retryState c (initState req 2 rid),
      none⟩) = _
    rw [step_scanning_buggy c _ none h3f, step_fixing]
  have h4f : (c.validate (fixState c (scanState c
      (retryState c (initState req 2 rid))))).result.status ≠ .approved := by
    rw [e6] at h4
    have h4y : (c.validate (fixState c (scanState c
        (retryState c (initState req 2 rid))))).result.status =
      .needs_revision := h4
    rw [h4y]
    decide
  have e7 : (step c)^[7] (initConfig req 2 rid) =
      ⟨.Scanning, retryState c (retryState c (initState req 2 rid)), none⟩ := by
    show (step c)^[3] ((step c)^[4] (initConfig req 2 rid)) = _
    rw [e4]
    exact cycle_retry c _ none h3f h4f (by show (0 : Nat) + 1 < 2; decide)
  have h5f : (c.scan (retryState c (retryState c
      (initState req 2 rid)))).errors ≠ [] := by
    rw [e7] at h5
    exact h5
  have e9 : (step c)^[9] (initConfig req 2 rid) =
      ⟨.Validating,
        fixState c (scanState c (retryState c (retryState c
          (initState req 2 rid)))),
        none⟩ := by
    show (step c)^[2] ((step c)^[7] (initConfig req 2 rid)) = _
    rw [e7]
    show step c (step c ⟨.Scanning,
      retryState c (retryState c (initState req 2 rid)), none⟩) = _
    rw [step_scanning_buggy c _ none h5f, step_fixing]
  have h6f : (c.validate (fixState c (scanState c (retryState c
      (retryState c (initState req 2 rid)))))).result.status ≠ .approved := by
    rw [e9] at h6
    have h6y : (c.validate (fixState c (scanState c (retryState c
        (retryState c (initState req 2 rid)))))).result.status =
      .needs_revision := h6
    rw [h6y]
    decide
  have e10 : (step c)^[10] (initConfig req 2 rid) =
      ⟨.Done, valState c (fixState c (scanState c (retryState c
        (retryState c (initState req 2 rid))))), some .iterationLimit⟩ := by
    show (step c)^[3] ((step c)^[7] (initConfig req 2 rid)) = _
    rw [e7]
    exact cycle_limit c _ none h5f h6f (by show (2 : Nat) ≤ 0 + 1 + 1; decide)
  refine ⟨by rw [e7], by rw [e7]; rfl, by rw [e10], by rw [e10], ?_, ?_⟩
  · rw [e10]
    rfl
  · rw [e10]
    show scannerCount (valState c (fixState c (scanState c (retryState c
      (retryState c (initState req 2 rid)))))) = 3
    rw [scannerCount_cycleState, scannerCount_retryState,
      scannerCount_retryState]
    rfl

/-- C3 witness: the amended scenario theorem at the concrete `alwaysBuggy`
collaborators. -/
theorem scenarioC_amended_witness :
    (alwaysBuggy.scan ((step alwaysBuggy)^[1]
      (initConfig demoRequest 2 "wc")).st).errors ≠ [] ∧
    (alwaysBuggy.validate ((step alwaysBuggy)^[3]
      (initConfig demoRequest 2 "wc")).st).result.status = .needs_revision ∧
    (alwaysBuggy.scan ((step alwaysBuggy)^[4]
      (initConfig demoRequest 2 "wc")).st).errors ≠ [] ∧
    (alwaysBuggy.validate ((step alwaysBuggy)^[6]
      (initConfig demoRequest 2 "wc")).st).result.status = .needs_revision ∧
    (alwaysBuggy.scan ((step alwaysBuggy)^[7]
      (initConfig demoRequest 2 "wc")).st).errors ≠ [] ∧
    (alwaysBuggy.validate ((step alwaysBuggy)^[9]
      (initConfig demoRequest 2 "wc")).st).result.status = .needs_revision ∧
    (((step alwaysBuggy)^[7] (initConfig demoRequest 2 "wc")).rs = .Scanning ∧
      ((step alwaysBuggy)^[7] (initConfig demoRequest 2 "wc")).st.iteration = 2 ∧
      ((step alwaysBuggy)^[10] (initConfig demoRequest 2 "wc")).rs = .Done ∧
      ((step alwaysBuggy)^[10] (initConfig demoRequest 2 "wc")).outcome =
        some .iterationLimit ∧
      ((step alwaysBuggy)^[10] (initConfig demoRequest 2 "wc")).st.iteration =
        2 ∧
      scannerCount ((step alwaysBuggy)^[10]
        (initConfig demoRequest 2 "wc")).st = 3) :=
  ⟨by decide, by decide, by decide, by decide, by decide, by decide,
    scenarioC_amended alwaysBuggy demoRequest "wc" (by decide) (by decide)
      (by decide) (by decide) (by decide) (by decide)⟩


/-! ## Client-side theorems -/

theorem lookupKey_setKey_self {ρ : Type} (a : String) (v : ρ)
    (l : List (String × ρ)) :
    Client.lookupKey a (Client.setKey a v l) = some v := by
  induction l with
  | nil => simp [Client.setKey, Client.lookupKey]
  | cons p rest ih =>
    obtain ⟨k, w⟩ := p
    by_cases hk : k = a
    · simp [Client.setKey, Client.lookupKey, hk]
    · simp [Client.setKey, Client.lookupKey, hk, ih]

theorem lookupKey_setKey_ne {ρ : Type} (k a : String) (hne : k ≠ a) (v : ρ)
    (l : List (String × ρ)) :
    Client.lookupKey k (Client.setKey a v l) = Client.lookupKey k l := by
  induction l with
  | nil => simp [Client.setKey, Client.lookupKey, Ne.symm hne]
  | cons p rest ih =>
    obtain ⟨q, w⟩ := p
    by_cases hq : q = a
    · subst hq
      simp [Client.setKey, Client.lookupKey, Ne.symm hne]
    · simp [Client.setKey, Client.lookupKey, hq, ih]

/-- C10: processing an `agent_complete` event updates `agentResults` only
under the key `event.agent` — every other agent's entry is unchanged, and the
event's result is recorded under its own agent. -/
theorem agentResults_frame {ρ : Type} (e : Client.StreamEvent ρ)
    (s : Client.ClientState ρ) (k : String)
    (ht : e.type = "agent_complete") (hk : k ≠ e.agent) :
    Client.lookupKey k (Client.handleStreamEvent e s).agentResults =
      Client.lookupKey k s.agentResults ∧
    Client.lookupKey e.agent (Client.handleStreamEvent e s).agentResults =
      some e.result := by
  have hres : (Client.handleStreamEvent e s).agentResults =
      Client.setKey e.agent e.result s.agentResults := by
    simp [Client.handleStreamEvent, ht]
  rw [hres]
  exact ⟨lookupKey_setKey_ne k e.agent hk e.result s.agentResults,
    lookupKey_setKey_self e.agent e.result s.agentResults⟩

/-- C10 witness: the frame theorem at a concrete `agent_complete` event — the
earlier Scanner entry of `demoClientState` survives a Fixer completion. -/
theorem agentResults_frame_witness :
    (Client.StreamEvent.mk "agent_complete" "Fixer" "done" 5).type =
      "agent_complete" ∧
    "Scanner" ≠ (Client.StreamEvent.mk "agent_complete" "Fixer" "done" 5).agent ∧
    (Client.lookupKey "Scanner" (Client.handleStreamEvent
        (Client.StreamEvent.mk "agent_complete" "Fixer" "done" 5)
        demoClientState).agentResults =
      Client.lookupKey "Scanner" demoClientState.agentResults ∧
    Client.lookupKey (Client.StreamEvent.mk "agent_complete" "Fixer" "done"
        5).agent
      (Client.handleStreamEvent
        (Client.StreamEvent.mk "agent_complete" "Fixer" "done" 5)
        demoClientState).agentResults = some 5) :=
  ⟨rfl, by decide,
    agentResults_frame (Client.StreamEvent.mk "agent_complete" "Fixer" "done" 5)
      demoClientState "Scanner" rfl (by decide)⟩

/-- C9: when the trimmed code is empty, `handleDebug` only sets the error
message `Please enter some code to debug` and reports that no request is
issued; moreover the Debug button is disabled whenever the trimmed code is
empty or a request is in flight (`isLoading`), so no debug request is ever
sent with empty code. -/
theorem handleDebug_empty_code {ρ : Type} (s : Client.ClientState ρ) :
    (Client.trim s.code = "" →
      Client.handleDebug s =
        ({ s with error := some "Please enter some code to debug" }, false) ∧
      Client.debugDisabled s = true) ∧
    (s.isLoading = true → Client.debugDisabled s = true) := by
  constructor
  · intro h
    constructor
    · simp [Client.handleDebug, h]
    · simp [Client.debugDisabled, h]
  · intro h
    simp [Client.debugDisabled, h]

/-- C9 witness: the empty-code theorem at the whitespace-only client state. -/
theorem handleDebug_empty_code_witness :
    Client.trim blankClientState.code = "" ∧
    (Client.handleDebug blankClientState =
      ({ blankClientState with
          error := some "Please enter some code to debug" }, false) ∧
      Client.debugDisabled blankClientState = true) :=
  ⟨by decide, (handleDebug_empty_code blankClientState).1 (by decide)⟩

/-- C8 counterexample: the legacy `App` component's language select offers
`typescript`, which is outside the spec's five-language enumeration (and
outside the `Debugger` component's `LANGUAGES` list) — so not every language
value the client interface lets a user submit is one of the five. -/
theorem language_enum_counterexample :
    Client.appLanguageOptions.contains "typescript" = true ∧
    Client.LANGUAGES.contains "typescript" = false ∧
    Client.specLanguageEnum.contains "typescript" = false := by
  refine ⟨by decide, by decide, by decide⟩

/-- C8 (amended): the `Debugger` component's `LANGUAGES` list is exactly the
spec's five-language enumeration; the legacy `App` component's select offers
all five of those plus exactly one extra value, `typescript`. -/
theorem language_options (l : String) :
    Client.LANGUAGES = Client.specLanguageEnum ∧
    (l ∈ Client.specLanguageEnum → l ∈ Client.LANGUAGES) ∧
    (l ∈ Client.specLanguageEnum → l ∈ Client.appLanguageOptions) ∧
    (l ∈ Client.appLanguageOptions →
      l ∈ Client.specLanguageEnum ∨ l = "typescript") := by
  refine ⟨rfl, ?_, ?_, ?_⟩ <;> intro h <;>
    simp [Client.LANGUAGES, Client.specLanguageEnum,
      Client.appLanguageOptions] at h ⊢ <;> tauto

/-- C8 witness: the amended language theorem at `python`. -/
theorem language_options_witness :
    "python" ∈ Client.specLanguageEnum ∧
    "python" ∈ Client.appLanguageOptions :=
  ⟨by decide, (language_options "python").2.2.1 (by decide)⟩


/-! ## Streaming contract -/

theorem done_iterate_eq (c : Collaborators) (cfg : Config) (k N : Nat)
    (hk : ((step c)^[k] cfg).rs = .Done) (hN : ((step c)^[N] cfg).rs = .Done) :
    (step c)^[k] cfg = (step c)^[N] cfg := by
  rcases le_total k N with h | h
  · have hsplit : (step c)^[N] cfg = (step c)^[N - k] ((step c)^[k] cfg) := by
      rw [← Function.iterate_add_apply]
      congr 1
      omega
    rw [hsplit, iterate_done c _ hk]
  · have hsplit : (step c)^[k] cfg = (step c)^[k - N] ((step c)^[N] cfg) := by
      rw [← Function.iterate_add_apply]
      congr 1
      omega
    rw [hsplit, iterate_done c _ hN]

theorem runEventsAux_spec (c : Collaborators) :
    ∀ (fuel : Nat) (cfg : Config) (e : Client.StreamEvent (Option Projection)),
      e ∈ runEventsAux c fuel cfg →
      (e.type = "agent_start" ∨ e.type = "agent_complete" ∨
        e.type = "workflow_complete") ∧
      ((e.type = "agent_start" ∨ e.type = "agent_complete") →
        (e.agent = "Scanner" ∨ e.agent = "Fixer" ∨ e.agent = "Validator")) ∧
      (e.type = "workflow_complete" →
        ∃ k, ((step c)^[k] cfg).rs = .Done ∧
          e.result = some (project ((step c)^[k] cfg).st)) := by
  intro fuel
  induction fuel with
  | zero =>
    intro cfg e he
    simp [runEventsAux] at he
  | succ fuel ih =>
    intro cfg e he
    rw [runEventsAux] at he
    by_cases hd : cfg.rs = .Done
    · rw [if_pos hd] at he
      rw [List.mem_singleton] at he
      subst he
      refine ⟨Or.inr (Or.inr rfl), ?_, ?_⟩
      · intro hx
        rcases hx with hx | hx <;> simp at hx
      · intro _
        exact ⟨0, hd, rfl⟩
    · rw [if_neg hd] at he
      rcases List.mem_append.mp he with he | he
      · obtain ⟨rs, st, oc⟩ := cfg
        cases rs
        · simp [stepEvents] at he
        · simp only [stepEvents, List.mem_cons, List.mem_singleton,
            List.not_mem_nil, or_false] at he
          rcases he with he | he <;> subst he <;>
            exact ⟨by simp, fun _ => Or.inl rfl, fun hw => by simp at hw⟩
        · simp only [stepEvents, List.mem_cons, List.mem_singleton,
            List.not_mem_nil, or_false] at he
          rcases he with he | he <;> subst he <;>
            exact ⟨by simp, fun _ => Or.inr (Or.inl rfl),
              fun hw => by simp at hw⟩
        · simp only [stepEvents, List.mem_cons, List.mem_singleton,
            List.not_mem_nil, or_false] at he
          rcases he with he | he <;> subst he <;>
            exact ⟨by simp, fun _ => Or.inr (Or.inr rfl),
              fun hw => by simp at hw⟩
        · exact absurd rfl hd
      · obtain ⟨t3, ag, wf⟩ := ih (step c cfg) e he
        refine ⟨t3, ag, ?_⟩
        intro hw
        obtain ⟨k, hk, hres⟩ := wf hw
        refine ⟨k + 1, ?_, ?_⟩
        · rw [Function.iterate_succ_apply]
          exact hk
        · rw [Function.iterate_succ_apply]
          exact hres

/-- C7: every event of a run's modelled stream has a type among
`agent_start`, `agent_complete`, `workflow_complete`, `error`; start/complete
events carry an agent among Scanner, Fixer, Validator; a `workflow_complete`
event carries the terminal projection of the run state; and the client's
`handleStreamEvent`, on an `error` event, clears the progress display and
records the error message — and changes nothing on any event type outside
these four. -/
theorem streaming_contract (c : Collaborators) (req : DebugRequest) (m : Nat)
    (rid : String) (e : Client.StreamEvent (Option Projection))
    (he : e ∈ runEvents c req m rid) {ρ : Type} (s : Client.ClientState ρ)
    (ev : Client.StreamEvent ρ) :
    (e.type = "agent_start" ∨ e.type = "agent_complete" ∨
      e.type = "workflow_complete" ∨ e.type = "error") ∧
    ((e.type = "agent_start" ∨ e.type = "agent_complete") →
      (e.agent = "Scanner" ∨ e.agent = "Fixer" ∨ e.agent = "Validator")) ∧
    (e.type = "workflow_complete" →
      e.result = some (project (finalState c req m rid))) ∧
    (ev.type = "error" →
      (Client.handleStreamEvent ev s).streamingStatus = none ∧
      (Client.handleStreamEvent ev s).error = some ev.message) ∧
    (ev.type ≠ "agent_start" → ev.type ≠ "agent_complete" →
      ev.type ≠ "workflow_complete" → ev.type ≠ "error" →
      Client.handleStreamEvent ev s = s) := by
  obtain ⟨t3, ag, wf⟩ :=
    runEventsAux_spec c (fuelBound m + 1) (initConfig req m rid) e he
  refine ⟨?_, ag, ?_, ?_, ?_⟩
  · rcases t3 with h | h | h
    · exact Or.inl h
    · exact Or.inr (Or.inl h)
    · exact Or.inr (Or.inr (Or.inl h))
  · intro hw
    obtain ⟨k, hk, hres⟩ := wf hw
    have hN : ((step c)^[fuelBound m] (initConfig req m rid)).rs = .Done := by
      apply done_of_stepsLeft_le
      show 3 * (m - 0) + 4 ≤ 3 * m + 4
      omega
    have heq := done_iterate_eq c (initConfig req m rid) k (fuelBound m) hk hN
    rw [hres, heq]
    rfl
  · intro hv
    constructor
    · simp [Client.handleStreamEvent, hv]
    · simp [Client.handleStreamEvent, hv]
  · intro ha hb hc2 hd2
    simp [Client.handleStreamEvent, ha, hb, hc2, hd2]

/-- C7 witness: the streaming contract at the `workflow_complete` event of a
concrete clean run, with a concrete `error` event for the client clauses. -/
theorem streaming_contract_witness :
    (Client.StreamEvent.mk "workflow_complete" "" "done"
        (some (project (finalState cleanRun demoRequest 0 "wr"))) ∈
      runEvents cleanRun demoRequest 0 "wr") ∧
    (((Client.StreamEvent.mk "workflow_complete" "" "done"
        (some (project (finalState cleanRun demoRequest 0 "wr")))).type =
          "agent_start" ∨
      (Client.StreamEvent.mk "workflow_complete" "" "done"
        (some (project (finalState cleanRun demoRequest 0 "wr")))).type =
          "agent_complete" ∨
      (Client.StreamEvent.mk "workflow_complete" "" "done"
        (some (project (finalState cleanRun demoRequest 0 "wr")))).type =
          "workflow_complete" ∨
      (Client.StreamEvent.mk "workflow_complete" "" "done"
        (some (project (finalState cleanRun demoRequest 0 "wr")))).type =
          "error") ∧
    (((Client.StreamEvent.mk "workflow_complete" "" "done"
        (some (project (finalState cleanRun demoRequest 0 "wr")))).type =
          "agent_start" ∨
      (Client.StreamEvent.mk "workflow_complete" "" "done"
        (some (project (finalState cleanRun demoRequest 0 "wr")))).type =
          "agent_complete") →
      ((Client.StreamEvent.mk "workflow_complete" "" "done"
        (some (project (finalState cleanRun demoRequest 0 "wr")))).agent =
          "Scanner" ∨
       (Client.StreamEvent.mk "workflow_complete" "" "done"
        (some (project (finalState cleanRun demoRequest 0 "wr")))).agent =
          "Fixer" ∨
       (Client.StreamEvent.mk "workflow_complete" "" "done"
        (some (project (finalState cleanRun demoRequest 0 "wr")))).agent =
          "Validator")) ∧
    ((Client.StreamEvent.mk "workflow_complete" "" "done"
        (some (project (finalState cleanRun demoRequest 0 "wr")))).type =
          "workflow_complete" →
      (Client.StreamEvent.mk "workflow_complete" "" "done"
        (some (project (finalState cleanRun demoRequest 0 "wr")))).result =
        some (project (finalState cleanRun demoRequest 0 "wr"))) ∧
    ((Client.StreamEvent.mk "error" "" "boom" (0 : Nat)).type = "error" →
      (Client.handleStreamEvent (Client.StreamEvent.mk "error" "" "boom" 0)
        demoClientState).streamingStatus = none ∧
      (Client.handleStreamEvent (Client.StreamEvent.mk "error" "" "boom" 0)
        demoClientState).error =
        some (Client.StreamEvent.mk "error" "" "boom" (0 : Nat)).message) ∧
    ((Client.StreamEvent.mk "error" "" "boom" (0 : Nat)).type ≠
        "agent_start" →
      (Client.StreamEvent.mk "error" "" "boom" (0 : Nat)).type ≠
        "agent_complete" →
      (Client.StreamEvent.mk "error" "" "boom" (0 : Nat)).type ≠
        "workflow_complete" →
      (Client.StreamEvent.mk "error" "" "boom" (0 : Nat)).type ≠ "error" →
      Client.handleStreamEvent (Client.StreamEvent.mk "error" "" "boom" 0)
        demoClientState = demoClientState)) :=
  ⟨by decide,
    streaming_contract cleanRun demoRequest 0 "wr"
      (Client.StreamEvent.mk "workflow_complete" "" "done"
        (some (project (finalState cleanRun demoRequest 0 "wr"))))
      (by decide) demoClientState
      (Client.StreamEvent.mk "error" "" "boom" 0)⟩

end Metamusk
